import Mathlib

/-!
Shallow embedding of `src/frontend/src/services/ttsService.ts`.

The module-scoped mutable state of the TypeScript file becomes the structure
`TtsState`; every function of the file becomes a pure Lean function from the
state to a new state paired with a trace of observable effects (`Eff`).
Asynchronous continuations (the `.then` handlers attached to fetch promises)
are embedded as separate settlement functions: they receive the state at the
moment the promise settles together with the values the closure captured
(generation counter, trimmed text) and the outcome of the fetch.

Blob URLs and AbortControllers are modelled by natural-number identifiers
drawn from a `nextId` counter. Callback invocations (`onEnd` / `onError` of
the `speak` call that wired them) appear as trace events of the function that
performs the invocation.
-/

namespace TtsService

/-- Whitespace test used by JS `String.prototype.trim` (common cases). -/
def isWs (c : Char) : Bool :=
  c = ' ' || c = '\t' || c = '\n' || c = '\r'

/-- Model of JS `text.trim()` : drop whitespace from both ends. -/
def jsTrim (s : String) : String :=
  String.mk (((s.data.dropWhile isWs).reverse.dropWhile isWs).reverse)

/-- Observable effects emitted by the service. -/
inductive Eff where
  /-- a network request (`fetch` to the TTS endpoint) is issued for this text -/
  | netRequest (text : String)
  /-- Effect of `controller.abort()` being called on the controller with this id -/
  | abortFetch (cid : Nat)
  /-- Effect of `URL.revokeObjectURL` being called on this blob URL -/
  | revokeUrl (url : Nat)
  /-- Effect of `_playBlobUrl` starting HTML-audio playback of this blob URL -/
  | playBlob (url : Nat)
  /-- Effect of `window.speechSynthesis.cancel()` being called -/
  | synthCancel
  /-- Effect of `window.speechSynthesis.speak` starting a local utterance for this text -/
  | speakBrowser (text : String)
  /-- the `onEnd` callback of the enclosing call is invoked -/
  | onEnd
  /-- the `onError` callback of the enclosing call is invoked -/
  | onError
deriving Repr, DecidableEq

/-- The module-scoped mutable state of `ttsService.ts`. Insertion-ordered JS
`Map`s become association lists (oldest first); JS `Set`s become lists. -/
structure TtsState where
  /-- Field `_speakGen` -/
  speakGen : Nat
  /-- Field `_abortController` (id of the current direct-fetch controller) -/
  abortCtrl : Option Nat
  /-- Field `_currentAudio` (the blob URL loaded in the active audio element) -/
  currentAudio : Option Nat
  /-- Field `_currentBlobUrl` -/
  currentBlobUrl : Option Nat
  /-- Field `_currentUtterance` (text of the active browser-TTS utterance) -/
  currentUtterance : Option String
  /-- Field `_prefetchCache` : trimmed text to blob URL, insertion order -/
  prefetchCache : List (String × Nat)
  /-- Field `_prefetchBlobUrls` -/
  prefetchBlobUrls : List Nat
  /-- keys of `_pendingPrefetches` -/
  pendingPrefetches : List String
  /-- Field `_prefetchAbortControllers` : trimmed text to controller id -/
  prefetchAbortCtrls : List (String × Nat)
  /-- fresh-identifier source for new controllers / blob URLs -/
  nextId : Nat
deriving Repr, DecidableEq

/-- The initial state of the module (all maps empty, generation 0). -/
def initState : TtsState :=
  { speakGen := 0, abortCtrl := none, currentAudio := none,
    currentBlobUrl := none, currentUtterance := none, prefetchCache := [],
    prefetchBlobUrls := [], pendingPrefetches := [], prefetchAbortCtrls := [],
    nextId := 0 }

/-- Model of JS `Map.get` : value of the first (only) entry with this key. -/
def mapGet (m : List (String × Nat)) (k : String) : Option Nat :=
  (m.find? (fun p => p.1 = k)).map (fun p => p.2)

/-- Model of JS `Map.has`. -/
def mapHas (m : List (String × Nat)) (k : String) : Bool :=
  m.any (fun p => p.1 = k)

/-- Model of JS `Map.set` : update in place if the key exists (JS keeps the original
insertion position), otherwise append at the end. -/
def mapSet (m : List (String × Nat)) (k : String) (v : Nat) : List (String × Nat) :=
  if mapHas m k then m.map (fun p => if p.1 = k then (k, v) else p)
  else m ++ [(k, v)]

/-- Model of JS `Map.delete`. -/
def mapDelete (m : List (String × Nat)) (k : String) : List (String × Nat) :=
  m.filter (fun p => ¬ p.1 = k)

/-- Model of `_cleanup()` : bump the generation, abort the direct fetch, stop audio,
revoke the current blob URL when it is not cache-protected, stop browser TTS. -/
def _cleanup (s : TtsState) : TtsState × List Eff :=
  let abortEffs : List Eff :=
    match s.abortCtrl with
    | some c => [Eff.abortFetch c]
    | none => []
  let revokeEffs : List Eff :=
    match s.currentBlobUrl with
    | some u => if u ∈ s.prefetchBlobUrls then [] else [Eff.revokeUrl u]
    | none => []
  let synthEffs : List Eff :=
    match s.currentUtterance with
    | some _ => [Eff.synthCancel]
    | none => []
  ({ s with speakGen := s.speakGen + 1, abortCtrl := none, currentAudio := none,
            currentBlobUrl := none, currentUtterance := none },
   abortEffs ++ revokeEffs ++ synthEffs)

/-- Model of `_playBlobUrl(blobUrl, onEnd, onError)` : start HTML-audio playback. -/
def _playBlobUrl (s : TtsState) (blobUrl : Nat) : TtsState × List Eff :=
  ({ s with currentAudio := some blobUrl, currentBlobUrl := some blobUrl },
   [Eff.playBlob blobUrl])

/-- The `audio.onended` handler wired by `_playBlobUrl`. -/
def audioOnEnded (s : TtsState) : TtsState × List Eff :=
  ({ s with currentAudio := none }, [Eff.onEnd])

/-- The `audio.onerror` handler wired by `_playBlobUrl`. -/
def audioOnError (s : TtsState) : TtsState × List Eff :=
  ({ s with currentAudio := none }, [Eff.onError])

/-- Model of `_speakBrowser(text, onEnd, onError)` : cancel any prior utterance and
start a local speechSynthesis utterance. -/
def _speakBrowser (s : TtsState) (text : String) : TtsState × List Eff :=
  ({ s with currentUtterance := some text },
   [Eff.synthCancel, Eff.speakBrowser text])

/-- The `utterance.onend` handler wired by `_speakBrowser`. -/
def utteranceOnEnd (s : TtsState) : TtsState × List Eff :=
  ({ s with currentUtterance := none }, [Eff.onEnd])

/-- The `utterance.onerror` handler wired by `_speakBrowser` : report the
error, then treat it as done so the scene advances. -/
def utteranceOnError (s : TtsState) : TtsState × List Eff :=
  ({ s with currentUtterance := none }, [Eff.onError, Eff.onEnd])

/-- Outcome of a backend fetch, as seen by `_fetchAudio`. -/
inductive FetchResult where
  /-- Case of a 2xx response carrying an audio blob (modelled by an id) -/
  | success (blobId : Nat)
  /-- response with `res.ok` false -/
  | httpError
  /-- the fetch promise rejected with a non-abort error -/
  | networkError
  /-- the fetch was aborted via its AbortSignal -/
  | aborted
deriving Repr, DecidableEq

/-- Model of `_fetchAudio` : maps the raw fetch outcome to `blob URL or null`:
non-ok responses, rejections and aborts all become `null` (`none`). -/
def _fetchAudio : FetchResult → Option Nat
  | FetchResult.success b => some b
  | FetchResult.httpError => none
  | FetchResult.networkError => none
  | FetchResult.aborted => none

/-- Constant `MAX_PREFETCH` -/
def MAX_PREFETCH : Nat := 30

/-- Constant `PREFETCH_STAGGER_MS` -/
def PREFETCH_STAGGER_MS : Nat := 150

/-- The `while (_prefetchCache.size > MAX_PREFETCH)` eviction loop of
`_cacheStore`, with explicit fuel (each iteration deletes the oldest key, so
`fuel = size` is always enough). `if (!oldest) break` in JS also fires when
the oldest key is the empty string (falsy), hence the `oldest = ""` branch. -/
def evictSteps : Nat → TtsState → TtsState × List Eff
  | 0, s => (s, [])
  | fuel + 1, s =>
    if s.prefetchCache.length > MAX_PREFETCH then
      match s.prefetchCache.head? with
      | none => (s, [])
      | some entry =>
        let oldest := entry.1
        if oldest = "" then (s, [])
        else
          let revokeEffs : List Eff :=
            match mapGet s.prefetchCache oldest with
            | some oldUrl => [Eff.revokeUrl oldUrl]
            | none => []
          let urls :=
            match mapGet s.prefetchCache oldest with
            | some oldUrl => s.prefetchBlobUrls.filter (fun u => ¬ u = oldUrl)
            | none => s.prefetchBlobUrls
          let s1 := { s with prefetchBlobUrls := urls,
                             prefetchCache := mapDelete s.prefetchCache oldest }
          let rest := evictSteps fuel s1
          (rest.1, revokeEffs ++ rest.2)
    else (s, [])

/-- Model of `_cacheStore(text, blobUrl)` : insert into the cache, record the URL in
the fast-lookup set, then evict oldest entries while over capacity. -/
def _cacheStore (s : TtsState) (text : String) (blobUrl : Nat) : TtsState × List Eff :=
  let cache := mapSet s.prefetchCache text blobUrl
  let urls :=
    if blobUrl ∈ s.prefetchBlobUrls then s.prefetchBlobUrls
    else s.prefetchBlobUrls ++ [blobUrl]
  evictSteps cache.length { s with prefetchCache := cache, prefetchBlobUrls := urls }

/-- What `speak` left behind for the event loop: nothing (synchronous
return), a handler attached to a pending prefetch promise, or a fresh direct
fetch; the generation and trimmed text are the values the closure captured. -/
inductive SpeakOutcome where
  | done
  | awaitedPending (gen : Nat) (trimmed : String)
  | directFetch (gen : Nat) (trimmed : String) (cid : Nat)
deriving Repr, DecidableEq

/-- Model of `speak(text, onEnd, onError)` : synchronous part. -/
def speak (s0 : TtsState) (text : String) : TtsState × List Eff × SpeakOutcome :=
  let s := (_cleanup s0).1
  let e0 := (_cleanup s0).2
  let trimmed := jsTrim text
  if trimmed = "" then (s, e0 ++ [Eff.onEnd], SpeakOutcome.done)
  else
    let gen := s.speakGen
    match mapGet s.prefetchCache trimmed with
    | some cached =>
      ((_playBlobUrl s cached).1, e0 ++ (_playBlobUrl s cached).2, SpeakOutcome.done)
    | none =>
      if trimmed ∈ s.pendingPrefetches then
        (s, e0, SpeakOutcome.awaitedPending gen trimmed)
      else
        let cid := s.nextId
        ({ s with nextId := s.nextId + 1, abortCtrl := some cid },
         e0 ++ [Eff.netRequest trimmed],
         SpeakOutcome.directFetch gen trimmed cid)

/-- The `.then` handler of the direct fetch in `speak` (step 3), run when the
fetch settles: bail if stale, else cache-and-play on success or fall back to
browser TTS on failure. -/
def directFetchSettle (s : TtsState) (gen : Nat) (trimmed : String)
    (blobUrl : Option Nat) : TtsState × List Eff :=
  if gen ≠ s.speakGen then (s, [])
  else
    match blobUrl with
    | some url =>
      let s1 := _cacheStore s trimmed url
      let s2 := _playBlobUrl s1.1 url
      (s2.1, s1.2 ++ s2.2)
    | none => _speakBrowser s trimmed

/-- The `.then` handler `speak` attaches to an already-pending prefetch
promise (step 2), run when that promise settles. -/
def pendingAwaitSettle (s : TtsState) (gen : Nat) (trimmed : String)
    (blobUrl : Option Nat) : TtsState × List Eff :=
  if gen ≠ s.speakGen then (s, [])
  else
    match blobUrl with
    | some url => _playBlobUrl s url
    | none => _speakBrowser s trimmed

/-- Model of `cancelSpeech()` -/
def cancelSpeech (s : TtsState) : TtsState × List Eff :=
  _cleanup s

/-- What `prefetchSpeech` did: nothing, or started a fetch for this trimmed
text with this controller id. -/
inductive PrefetchOutcome where
  | noop
  | started (trimmed : String) (cid : Nat)
deriving Repr, DecidableEq

/-- Model of `prefetchSpeech(text)` : synchronous part. No-op when the trimmed text is
empty, cached, or already pending; otherwise register a controller, issue the
fetch and register the promise in the pending map. -/
def prefetchSpeech (s : TtsState) (text : String) :
    TtsState × List Eff × PrefetchOutcome :=
  let trimmed := jsTrim text
  if trimmed = "" ∨ mapHas s.prefetchCache trimmed ∨ trimmed ∈ s.pendingPrefetches then
    (s, [], PrefetchOutcome.noop)
  else
    let cid := s.nextId
    ({ s with nextId := s.nextId + 1,
              prefetchAbortCtrls := mapSet s.prefetchAbortCtrls trimmed cid,
              pendingPrefetches := s.pendingPrefetches ++ [trimmed] },
     [Eff.netRequest trimmed],
     PrefetchOutcome.started trimmed cid)

/-- The `.then` handler of a prefetch fetch, run at settlement: remove the
pending entry and its controller, store in the cache on success, discard
silently on failure. -/
def prefetchSettle (s : TtsState) (trimmed : String) (blobUrl : Option Nat) :
    TtsState × List Eff :=
  let s1 := { s with
    pendingPrefetches := s.pendingPrefetches.filter (fun t => ¬ t = trimmed),
    prefetchAbortCtrls := mapDelete s.prefetchAbortCtrls trimmed }
  match blobUrl with
  | some url => _cacheStore s1 trimmed url
  | none => (s1, [])

/-- Model of the spread of a JS Set : de-duplicate keeping first occurrences. -/
def dedupAux : List String → List String → List String
  | [], _ => []
  | x :: xs, seen =>
    if x ∈ seen then dedupAux xs seen else x :: dedupAux xs (x :: seen)

/-- De-duplication entry point. -/
def dedup (l : List String) : List String := dedupAux l []

/-- The body of the `unique.forEach((text, i) => ...)` loop of
`prefetchAllScenes`, over the enumerated unique list. Returns the state, the
immediate effects, and the `setTimeout` registrations as `(delayMs, text)`
pairs. Index 0 fires `prefetchSpeech` immediately; later indices are only
scheduled, after the synchronous cache/pending check. -/
def scenesLoop (s : TtsState) : List (Nat × String) →
    TtsState × List Eff × List (Nat × String)
  | [] => (s, [], [])
  | item :: rest =>
    let i := item.1
    let text := item.2
    if mapHas s.prefetchCache text ∨ text ∈ s.pendingPrefetches then
      scenesLoop s rest
    else if i = 0 then
      let r1 := prefetchSpeech s text
      let r2 := scenesLoop r1.1 rest
      (r2.1, r1.2.1 ++ r2.2.1, r2.2.2)
    else
      let r2 := scenesLoop s rest
      (r2.1, r2.2.1, (i * PREFETCH_STAGGER_MS, text) :: r2.2.2)

/-- The index plumbing of `unique.forEach((text, i) => ...)`. -/
def enumIdx (n : Nat) : List String → List (Nat × String)
  | [] => []
  | x :: xs => (n, x) :: enumIdx (n + 1) xs

/-- Model of `prefetchAllScenes(narrations)` : trim, drop empties (`filter(Boolean)`),
de-duplicate, then run the forEach loop. -/
def prefetchAllScenes (s : TtsState) (narrations : List String) :
    TtsState × List Eff × List (Nat × String) :=
  let unique := dedup ((narrations.map jsTrim).filter (fun t => ¬ t = ""))
  scenesLoop s (enumIdx 0 unique)

/-- The `setTimeout` callback of a staggered item : re-check cache/pending at
fire time and skip if redundant, else prefetch. -/
def staggeredFire (s : TtsState) (text : String) : TtsState × List Eff :=
  if mapHas s.prefetchCache text ∨ text ∈ s.pendingPrefetches then (s, [])
  else
    let r := prefetchSpeech s text
    (r.1, r.2.1)

/-- Model of `cancelAllPrefetches()` : abort every prefetch controller, clear both the
controller map and the pending map. -/
def cancelAllPrefetches (s : TtsState) : TtsState × List Eff :=
  ({ s with prefetchAbortCtrls := [], pendingPrefetches := [] },
   s.prefetchAbortCtrls.map (fun p => Eff.abortFetch p.2))

/-! ## Helper lemmas -/

/-- Recognizer for network-request effects. -/
def isNetRequest : Eff → Bool
  | Eff.netRequest _ => true
  | _ => false

/-- Lemma : `_cleanup` never issues a network request. -/
theorem cleanup_effs_no_net (s : TtsState) : ((_cleanup s).2.any isNetRequest) = false := by
  unfold _cleanup
  cases hac : s.abortCtrl <;> cases hcb : s.currentBlobUrl <;>
    cases hcu : s.currentUtterance <;>
    simp [isNetRequest] <;> split <;> simp [isNetRequest]

/-- The synchronous part of `speak` never touches the cache, the pending
map or the prefetch controllers. -/
theorem speak_frame (s : TtsState) (t : String) :
    (speak s t).1.prefetchCache = s.prefetchCache ∧
    (speak s t).1.pendingPrefetches = s.pendingPrefetches ∧
    (speak s t).1.prefetchAbortCtrls = s.prefetchAbortCtrls := by
  unfold speak
  by_cases h1 : jsTrim t = ""
  · simp only [h1, if_true]
    exact ⟨rfl, rfl, rfl⟩
  · simp only [h1, if_false]
    cases hm : mapGet (_cleanup s).1.prefetchCache (jsTrim t) with
    | some cached =>
      simp only [hm]
      exact ⟨rfl, rfl, rfl⟩
    | none =>
      by_cases h2 : jsTrim t ∈ (_cleanup s).1.pendingPrefetches
      · simp only [hm, h2, if_true]
        exact ⟨rfl, rfl, rfl⟩
      · simp only [hm, h2, if_false]
        exact ⟨rfl, rfl, rfl⟩

/-- Lemma : `speak` always bumps the generation counter by exactly one. -/
theorem speak_speakGen (s : TtsState) (t : String) :
    (speak s t).1.speakGen = s.speakGen + 1 := by
  unfold speak
  by_cases h1 : jsTrim t = ""
  · simp only [h1, if_true]
    rfl
  · simp only [h1, if_false]
    cases hm : mapGet (_cleanup s).1.prefetchCache (jsTrim t) with
    | some cached =>
      simp only [hm]
      rfl
    | none =>
      by_cases h2 : jsTrim t ∈ (_cleanup s).1.pendingPrefetches
      · simp only [hm, h2, if_true]
        rfl
      · simp only [hm, h2, if_false]
        rfl

/-- The generation a `speak` continuation captures is the generation of the
state `speak` returns (the post-cleanup generation). -/
theorem speak_outcome_gen (s : TtsState) (t tr : String) (g c : Nat) :
    ((speak s t).2.2 = SpeakOutcome.directFetch g tr c → g = s.speakGen + 1) ∧
    ((speak s t).2.2 = SpeakOutcome.awaitedPending g tr → g = s.speakGen + 1) := by
  unfold speak
  by_cases h1 : jsTrim t = ""
  · simp [h1]
  · simp only [h1, if_false]
    cases hm : mapGet (_cleanup s).1.prefetchCache (jsTrim t) with
    | some cached => simp
    | none =>
      by_cases h2 : jsTrim t ∈ (_cleanup s).1.pendingPrefetches
      · simp only [hm, h2, if_true]
        constructor
        · intro h
          cases h
        · intro h
          cases h
          rfl
      · simp only [hm, h2, if_false]
        constructor
        · intro h
          cases h
          rfl
        · intro h
          cases h

/-- Lemma : `evictSteps` touches only the cache and the blob-URL set; in particular
the pending map is preserved. -/
theorem evictSteps_pendingPrefetches (fuel : Nat) (s : TtsState) :
    (evictSteps fuel s).1.pendingPrefetches = s.pendingPrefetches := by
  induction fuel generalizing s with
  | zero => rfl
  | succ n ih =>
    unfold evictSteps
    by_cases h : s.prefetchCache.length > MAX_PREFETCH
    · simp only [h, if_true]
      cases hh : s.prefetchCache.head? with
      | none => rfl
      | some entry =>
        by_cases he : entry.1 = ""
        · simp [he]
        · simp only [he, if_false]
          cases hg : mapGet s.prefetchCache entry.1 <;> simp [hg, ih]
    · simp [h]

/-- Lemma : `_cacheStore` preserves the pending map. -/
theorem cacheStore_pendingPrefetches (s : TtsState) (t : String) (u : Nat) :
    (_cacheStore s t u).1.pendingPrefetches = s.pendingPrefetches := by
  unfold _cacheStore
  simp [evictSteps_pendingPrefetches]

/-! ## C6 : empty input -/

/-- Claim C6 : for every input text that is empty or whitespace-only (trims to
the empty string), `speak` invokes `onEnd` synchronously (it appears in the
trace of the synchronous part and the outcome is `done`, leaving nothing to
the event loop) and issues no network request. -/
theorem speak_empty_input (s : TtsState) (text : String) (h : jsTrim text = "") :
    Eff.onEnd ∈ (speak s text).2.1 ∧
    ((speak s text).2.1.any isNetRequest) = false ∧
    (speak s text).2.2 = SpeakOutcome.done := by
  unfold speak
  simp [h, List.any_append, cleanup_effs_no_net, isNetRequest]

/-- Witness for C6 at the whitespace-only input `"   "`. -/
theorem speak_empty_input_witness :
    Eff.onEnd ∈ (speak initState "   ").2.1 ∧
    ((speak initState "   ").2.1.any isNetRequest) = false ∧
    (speak initState "   ").2.2 = SpeakOutcome.done :=
  speak_empty_input initState "   " (by decide)

/-! ## C10 : empty-input prefetch is a complete no-op -/

/-- Claim C10 : for an input whose trimmed form is empty, `prefetchSpeech`
returns the state unchanged, emits no effect (in particular no network
request) and starts nothing. -/
theorem prefetchSpeech_empty_noop (s : TtsState) (text : String)
    (h : jsTrim text = "") :
    prefetchSpeech s text = (s, [], PrefetchOutcome.noop) := by
  unfold prefetchSpeech
  simp [h]

/-- Witness for C10 at the whitespace-only input `" "`. -/
theorem prefetchSpeech_empty_noop_witness :
    prefetchSpeech initState " " = (initState, [], PrefetchOutcome.noop) :=
  prefetchSpeech_empty_noop initState " " (by decide)

/-! ## C7 : prefetch deduplication -/

/-- Claim C7 : calling `prefetchSpeech` twice in a row with the same text is a
no-op the second time (same state, no effects); when the first call actually
started a fetch (text non-empty, not cached, not pending) the total network
traffic of the two calls is exactly one request. -/
theorem prefetchSpeech_dedup (s : TtsState) (text : String) :
    prefetchSpeech (prefetchSpeech s text).1 text =
      ((prefetchSpeech s text).1, [], PrefetchOutcome.noop) ∧
    (¬ (jsTrim text = "" ∨ mapHas s.prefetchCache (jsTrim text) ∨
          jsTrim text ∈ s.pendingPrefetches) →
      (prefetchSpeech s text).2.1 = [Eff.netRequest (jsTrim text)] ∧
      (prefetchSpeech s text).2.2 =
        PrefetchOutcome.started (jsTrim text) s.nextId) := by
  constructor
  · by_cases hg : jsTrim text = "" ∨ mapHas s.prefetchCache (jsTrim text) ∨
        jsTrim text ∈ s.pendingPrefetches
    · unfold prefetchSpeech
      simp [hg]
    · unfold prefetchSpeech
      simp [hg]
  · intro hg
    unfold prefetchSpeech
    simp [hg]

/-- Witness for C7 at a fresh state and the text `"a"`. -/
theorem prefetchSpeech_dedup_witness :
    prefetchSpeech (prefetchSpeech initState "a").1 "a" =
      ((prefetchSpeech initState "a").1, [], PrefetchOutcome.noop) ∧
    ((prefetchSpeech initState "a").2.1 = [Eff.netRequest "a"] ∧
     (prefetchSpeech initState "a").2.2 = PrefetchOutcome.started "a" 0) :=
  ⟨(prefetchSpeech_dedup initState "a").1,
   (prefetchSpeech_dedup initState "a").2 (by decide)⟩

/-! ## C9 : cancellation aborts the direct fetch only -/

/-- Claim C9 : every cancellation (`cancelSpeech`, or the `_cleanup` at the
start of any `speak` call) aborts the in-flight direct-fetch controller when
there is one — and only that controller — while leaving the prefetch cache,
the pending-request map and the prefetch abort controllers unchanged. -/
theorem cancellation_frame (s : TtsState) (c : Nat) (t : String) :
    ((_cleanup s).1.prefetchCache = s.prefetchCache ∧
     (_cleanup s).1.prefetchBlobUrls = s.prefetchBlobUrls ∧
     (_cleanup s).1.pendingPrefetches = s.pendingPrefetches ∧
     (_cleanup s).1.prefetchAbortCtrls = s.prefetchAbortCtrls) ∧
    (s.abortCtrl = some c → Eff.abortFetch c ∈ (_cleanup s).2) ∧
    (Eff.abortFetch c ∈ (_cleanup s).2 → s.abortCtrl = some c) ∧
    cancelSpeech s = _cleanup s ∧
    ((speak s t).1.prefetchCache = s.prefetchCache ∧
     (speak s t).1.pendingPrefetches = s.pendingPrefetches ∧
     (speak s t).1.prefetchAbortCtrls = s.prefetchAbortCtrls) := by
  refine ⟨⟨rfl, rfl, rfl, rfl⟩, ?_, ?_, rfl, ?_⟩
  · intro hc
    unfold _cleanup
    simp [hc]
  · intro hmem
    unfold _cleanup at hmem
    cases hac : s.abortCtrl <;> cases hcb : s.currentBlobUrl <;>
      cases hcu : s.currentUtterance <;> simp [hac, hcb, hcu] at hmem <;>
      first
        | (exact absurd hmem (by split <;> simp))
        | (rw [hmem])
        | (rcases hmem with h | h
           · rw [h]
           · exact absurd h (by split <;> simp))
  · exact ⟨(speak_frame s t).1, (speak_frame s t).2.1, (speak_frame s t).2.2⟩

/-- Witness for C9 at a state with an in-flight direct fetch controller 5. -/
theorem cancellation_frame_witness :
    Eff.abortFetch 5 ∈ (_cleanup { initState with abortCtrl := some 5 }).2 :=
  (cancellation_frame { initState with abortCtrl := some 5 } 5 "x").2.1 rfl

/-! ## C2 : stale settlements are silent no-ops -/

/-- Claim C2 : when `speak(A)` leaves a direct fetch or an awaited pending
prefetch behind and `speak(B)` runs before that fetch settles, the captured
generation is strictly below every later generation, so the settlement
handler of A returns the state unchanged with an empty trace: the audio of A
is never played and neither `onEnd` nor `onError` of A is invoked. -/
theorem stale_settlement_noop (s0 s' : TtsState) (a b tr : String) (g c : Nat)
    (r : Option Nat)
    (hout : (speak s0 a).2.2 = SpeakOutcome.directFetch g tr c ∨
            (speak s0 a).2.2 = SpeakOutcome.awaitedPending g tr)
    (hafter : (speak (speak s0 a).1 b).1.speakGen ≤ s'.speakGen) :
    directFetchSettle s' g tr r = (s', []) ∧
    pendingAwaitSettle s' g tr r = (s', []) := by
  have hg : g = s0.speakGen + 1 := by
    rcases hout with h | h
    · exact (speak_outcome_gen s0 a tr g c).1 h
    · exact (speak_outcome_gen s0 a tr g c).2 h
  rw [speak_speakGen, speak_speakGen] at hafter
  have hne : g ≠ s'.speakGen := by omega
  constructor
  · unfold directFetchSettle
    simp [hne]
  · unfold pendingAwaitSettle
    simp [hne]

/-- Witness for C2 : `speak "a"` then `speak "b"` from the initial state;
the settlement of the fetch of `"a"` (captured generation 1) in the state
after `speak "b"` does nothing, whatever the fetch returned. -/
theorem stale_settlement_noop_witness :
    directFetchSettle (speak (speak initState "a").1 "b").1 1 "a" (some 7)
        = ((speak (speak initState "a").1 "b").1, []) ∧
    pendingAwaitSettle (speak (speak initState "a").1 "b").1 1 "a" (some 7)
        = ((speak (speak initState "a").1 "b").1, []) :=
  stale_settlement_noop initState (speak (speak initState "a").1 "b").1
    "a" "b" "a" 1 0 (some 7) (Or.inl (by decide)) (by decide)

/-! ## C3 : fallback on backend failure, onEnd even on synthesis error -/

/-- Claim C3 : when the backend fetch of a (still current) `speak` call returns
a non-success status or rejects, `_fetchAudio` yields `null`, the settlement
starts browser fallback synthesis for the trimmed text, and the utterance
handlers guarantee `onEnd` : the error handler invokes `onError` first and
then `onEnd` regardless, the end handler invokes `onEnd`. -/
theorem fallback_on_failure (s0 s' : TtsState) (text tr : String) (g c : Nat)
    (r : FetchResult)
    (hout : (speak s0 text).2.2 = SpeakOutcome.directFetch g tr c)
    (hcur : s'.speakGen = g)
    (hr : r = FetchResult.httpError ∨ r = FetchResult.networkError) :
    Eff.speakBrowser tr ∈ (directFetchSettle s' g tr (_fetchAudio r)).2 ∧
    (directFetchSettle s' g tr (_fetchAudio r)).1.currentUtterance = some tr ∧
    (utteranceOnError (directFetchSettle s' g tr (_fetchAudio r)).1).2
        = [Eff.onError, Eff.onEnd] ∧
    (utteranceOnEnd (directFetchSettle s' g tr (_fetchAudio r)).1).2
        = [Eff.onEnd] ∧
    Eff.speakBrowser tr ∈ (pendingAwaitSettle s' g tr (_fetchAudio r)).2 := by
  have hnull : _fetchAudio r = none := by
    rcases hr with h | h <;> subst h <;> rfl
  have hg : ¬ g ≠ s'.speakGen := by simp [hcur]
  rw [hnull]
  unfold directFetchSettle pendingAwaitSettle
  simp only [hg, if_false]
  unfold _speakBrowser utteranceOnError utteranceOnEnd
  simp

/-- Witness for C3 : `speak "hi"` from the initial state, backend answers
with a non-success status, settlement in the unchanged state. -/
theorem fallback_on_failure_witness :
    Eff.speakBrowser "hi" ∈
      (directFetchSettle (speak initState "hi").1 1 "hi"
        (_fetchAudio FetchResult.httpError)).2 ∧
    (directFetchSettle (speak initState "hi").1 1 "hi"
        (_fetchAudio FetchResult.httpError)).1.currentUtterance = some "hi" ∧
    (utteranceOnError (directFetchSettle (speak initState "hi").1 1 "hi"
        (_fetchAudio FetchResult.httpError)).1).2 = [Eff.onError, Eff.onEnd] ∧
    (utteranceOnEnd (directFetchSettle (speak initState "hi").1 1 "hi"
        (_fetchAudio FetchResult.httpError)).1).2 = [Eff.onEnd] ∧
    Eff.speakBrowser "hi" ∈
      (pendingAwaitSettle (speak initState "hi").1 1 "hi"
        (_fetchAudio FetchResult.httpError)).2 :=
  fallback_on_failure initState (speak initState "hi").1 "hi" "hi" 1 0
    FetchResult.httpError (by decide) (by decide) (Or.inl rfl)

/-! ## C4 : pending-map lifecycle -/

/-- Counterexample to claim C4 : the claim says a pending entry is never removed
before the settlement of its fetch, but `cancelAllPrefetches` clears the
pending map while the fetch of `"a"` is still in flight (no settlement has
run between the two calls). -/
theorem pending_removed_before_settlement_cex :
    (prefetchSpeech initState "a").2.2 = PrefetchOutcome.started "a" 0 ∧
    "a" ∈ (prefetchSpeech initState "a").1.pendingPrefetches ∧
    "a" ∉ (cancelAllPrefetches
            (prefetchSpeech initState "a").1).1.pendingPrefetches := by
  decide

/-- Claim C4 as amended : the settlement of the fetch of a text removes its
pending entry (present before, absent after, and the removal is the filter of
exactly that key, hence happens only once); no operation other than the
settlement and `cancelAllPrefetches` removes pending entries — `speak`, the
`speak` settlements and `cancelSpeech` leave the pending map unchanged, and
`prefetchSpeech` only ever adds to it. -/
theorem pending_removed_at_settlement (s : TtsState) (t u : String) (g : Nat)
    (r : Option Nat) :
    (prefetchSettle s t r).1.pendingPrefetches
        = s.pendingPrefetches.filter (fun x => ¬ x = t) ∧
    t ∉ (prefetchSettle s t r).1.pendingPrefetches ∧
    (speak s u).1.pendingPrefetches = s.pendingPrefetches ∧
    (cancelSpeech s).1.pendingPrefetches = s.pendingPrefetches ∧
    (directFetchSettle s g t r).1.pendingPrefetches = s.pendingPrefetches ∧
    (pendingAwaitSettle s g t r).1.pendingPrefetches = s.pendingPrefetches ∧
    (t ∈ s.pendingPrefetches → t ∈ (prefetchSpeech s u).1.pendingPrefetches) := by
  refine ⟨?_, ?_, (speak_frame s u).2.1, rfl, ?_, ?_, ?_⟩
  · unfold prefetchSettle
    cases r with
    | none => rfl
    | some url => simp [cacheStore_pendingPrefetches]
  · unfold prefetchSettle
    cases r with
    | none => simp
    | some url => simp [cacheStore_pendingPrefetches]
  · unfold directFetchSettle
    by_cases hg : g ≠ s.speakGen
    · simp [hg]
    · simp only [hg, if_false]
      cases r with
      | none => rfl
      | some url => simp [cacheStore_pendingPrefetches, _playBlobUrl]
  · unfold pendingAwaitSettle
    by_cases hg : g ≠ s.speakGen
    · simp [hg]
    · simp only [hg, if_false]
      cases r with
      | none => rfl
      | some url => rfl
  · intro hmem
    unfold prefetchSpeech
    by_cases hg : jsTrim u = "" ∨ mapHas s.prefetchCache (jsTrim u) ∨
        jsTrim u ∈ s.pendingPrefetches
    · simp only [hg, if_true]
      exact hmem
    · simp only [hg, if_false]
      simp [hmem]

/-- Witness for C4 (amended) at a state with pending entries for `"a"` and
`"b"` : settling `"a"` removes exactly `"a"` and `prefetchSpeech "c"` keeps
`"a"` pending. -/
theorem pending_removed_at_settlement_witness :
    (prefetchSettle { initState with pendingPrefetches := ["a", "b"] } "a"
        none).1.pendingPrefetches = ["b"] ∧
    "a" ∈ (prefetchSpeech { initState with pendingPrefetches := ["a", "b"] }
        "c").1.pendingPrefetches := by
  constructor
  · rw [(pending_removed_at_settlement
      { initState with pendingPrefetches := ["a", "b"] } "a" "c" 0 none).1]
    decide
  · exact (pending_removed_at_settlement
      { initState with pendingPrefetches := ["a", "b"] } "a" "c" 0
      none).2.2.2.2.2.2 (by decide)

/-! ## C1 : eviction versus the currently playing handle -/

/-- Deleting a key removes every entry with that key. -/
theorem mapDelete_has_self (m : List (String × Nat)) (k : String) :
    mapHas (mapDelete m k) k = false := by
  unfold mapHas mapDelete
  induction m with
  | nil => rfl
  | cons p rest ih =>
    by_cases h : p.1 = k
    · simpa [h] using ih
    · simpa [h] using ih

/-- When the cache is not over capacity the eviction loop does nothing. -/
theorem evictSteps_of_le (fuel : Nat) (s : TtsState)
    (h : ¬ s.prefetchCache.length > MAX_PREFETCH) :
    evictSteps fuel s = (s, []) := by
  cases fuel with
  | zero => rfl
  | succ n => simp [evictSteps, h]

/-- One step of the eviction loop on a cache whose oldest entry is `(k, v)`
and that is exactly one over what the loop tolerates afterwards: the oldest
entry is deleted, its URL revoked and removed from the fast-lookup set. -/
theorem evictSteps_step (fuel : Nat) (s : TtsState) (k : String) (v : Nat)
    (tail : List (String × Nat))
    (hc : s.prefetchCache = (k, v) :: tail)
    (hgt : tail.length + 1 > MAX_PREFETCH)
    (hk : ¬ k = "")
    (hstop : ¬ ((tail.filter (fun p => ¬ p.1 = k)).length > MAX_PREFETCH)) :
    evictSteps (fuel + 1) s =
      ({ s with prefetchCache := tail.filter (fun p => ¬ p.1 = k),
                prefetchBlobUrls := s.prefetchBlobUrls.filter (fun x => ¬ x = v) },
       [Eff.revokeUrl v]) := by
  have hlen : s.prefetchCache.length > MAX_PREFETCH := by
    rw [hc]
    simpa using hgt
  have hhead : s.prefetchCache.head? = some (k, v) := by
    rw [hc]
    rfl
  have hget : mapGet s.prefetchCache k = some v := by
    rw [hc]
    simp [mapGet, List.find?_cons]
  have hdel : mapDelete s.prefetchCache k = tail.filter (fun p => ¬ p.1 = k) := by
    rw [hc]
    simp [mapDelete, List.filter_cons]
  unfold evictSteps
  rw [if_pos hlen, hhead]
  simp only [hk, if_false, hget, hdel]
  rw [evictSteps_of_le fuel _ (by simpa using hstop)]
  rfl

/-- Setup of the counterexample to claim C1 : a cache at capacity (30 entries `"0" .. "29"`)
whose oldest entry holds blob URL 0, which is also the currently playing
URL (`currentBlobUrl = currentAudio = 0`). The claim says this entry is
retained and the next-oldest evicted instead; the code evicts the oldest
entry and revokes URL 0 anyway, and keeps the next-oldest `"1"`. -/
def c1State : TtsState :=
  { initState with
      prefetchCache := (List.range 30).map (fun i => (toString i, i)),
      prefetchBlobUrls := List.range 30,
      currentAudio := some 0,
      currentBlobUrl := some 0 }

/-- Counterexample to claim C1 : inserting a 31st entry evicts the oldest entry
even though its handle is the one currently playing, and releases (revokes)
that handle. -/
theorem evict_releases_playing_cex :
    c1State.currentBlobUrl = some 0 ∧
    c1State.prefetchCache.head? = some ("0", 0) ∧
    (_cacheStore c1State "fresh" 99).2 = [Eff.revokeUrl 0] ∧
    mapHas (_cacheStore c1State "fresh" 99).1.prefetchCache "0" = false ∧
    mapHas (_cacheStore c1State "fresh" 99).1.prefetchCache "1" = true := by
  decide

/-- Claim C1 as amended : when a `put` (`_cacheStore`) pushes a cache that is at
capacity over it, the single oldest entry is evicted and its resource
released unconditionally — in particular even when its handle is the blob
URL of the currently playing session. There is no skip-and-continue: the
oldest key always leaves the cache, the new key enters, and the bound is
restored. -/
theorem evict_releases_oldest_unconditionally (s : TtsState) (t k : String)
    (u v : Nat)
    (hlen : s.prefetchCache.length = MAX_PREFETCH)
    (hnew : mapHas s.prefetchCache t = false)
    (hhead : s.prefetchCache.head? = some (k, v))
    (hk : ¬ k = "")
    (hplay : s.currentBlobUrl = some v) :
    (_cacheStore s t u).2 = [Eff.revokeUrl v] ∧
    mapHas (_cacheStore s t u).1.prefetchCache k = false ∧
    mapHas (_cacheStore s t u).1.prefetchCache t = true ∧
    (_cacheStore s t u).1.prefetchCache.length ≤ MAX_PREFETCH := by
  obtain ⟨tail, hc⟩ : ∃ tail, s.prefetchCache = (k, v) :: tail := by
    cases hcc : s.prefetchCache with
    | nil => rw [hcc] at hhead; cases hhead
    | cons hd tl =>
      rw [hcc] at hhead
      simp only [List.head?_cons, Option.some.injEq] at hhead
      exact ⟨tl, by rw [hhead]⟩
  have htk : ¬ t = k := by
    intro h
    rw [h] at hnew
    rw [hc] at hnew
    simp [mapHas] at hnew
  have htail : tail.length = 29 := by
    rw [hc] at hlen
    simpa [MAX_PREFETCH] using hlen
  have hset : mapSet s.prefetchCache t u = (k, v) :: (tail ++ [(t, u)]) := by
    unfold mapSet
    rw [hnew]
    simp [hc]
  have hstop : ¬ (((tail ++ [(t, u)]).filter
      (fun p => ¬ p.1 = k)).length > MAX_PREFETCH) := by
    have h1 : ((tail ++ [(t, u)]).filter (fun p => ¬ p.1 = k)).length ≤
        (tail ++ [(t, u)]).length := List.length_filter_le _ _
    have h2 : (tail ++ [(t, u)]).length = 30 := by simp [htail]
    simp only [MAX_PREFETCH]
    omega
  have hrun := evictSteps_step ((tail ++ [(t, u)]).length)
    { s with prefetchCache := (k, v) :: (tail ++ [(t, u)]),
             prefetchBlobUrls :=
               if u ∈ s.prefetchBlobUrls then s.prefetchBlobUrls
               else s.prefetchBlobUrls ++ [u] }
    k v (tail ++ [(t, u)]) rfl
    (by simp [htail, MAX_PREFETCH]) hk hstop
  have hmain : _cacheStore s t u =
      ({ s with
          prefetchCache := (tail ++ [(t, u)]).filter (fun p => ¬ p.1 = k),
          prefetchBlobUrls :=
            (if u ∈ s.prefetchBlobUrls then s.prefetchBlobUrls
             else s.prefetchBlobUrls ++ [u]).filter (fun x => ¬ x = v) },
       [Eff.revokeUrl v]) := by
    unfold _cacheStore
    simp only [hset, List.length_cons]
    exact hrun
  rw [hmain]
  refine ⟨rfl, ?_, ?_, ?_⟩
  · have := mapDelete_has_self (tail ++ [(t, u)]) k
    simpa [mapDelete] using this
  · simp only [mapHas, List.any_eq_true]
    refine ⟨(t, u), ?_, by simp⟩
    simp [List.mem_filter, htk]
  · have h1 : ((tail ++ [(t, u)]).filter (fun p => ¬ p.1 = k)).length ≤
        (tail ++ [(t, u)]).length := List.length_filter_le _ _
    have h2 : (tail ++ [(t, u)]).length = 30 := by simp [htail]
    simp only [MAX_PREFETCH]
    omega

/-- Witness for C1 (amended), applied at the counterexample state: the put
revokes the playing URL 0 and evicts key `"0"`. -/
theorem evict_releases_oldest_unconditionally_witness :
    (_cacheStore c1State "fresh" 99).2 = [Eff.revokeUrl 0] ∧
    mapHas (_cacheStore c1State "fresh" 99).1.prefetchCache "0" = false ∧
    mapHas (_cacheStore c1State "fresh" 99).1.prefetchCache "fresh" = true ∧
    (_cacheStore c1State "fresh" 99).1.prefetchCache.length ≤ MAX_PREFETCH :=
  evict_releases_oldest_unconditionally c1State "fresh" "0" 99 0
    (by decide) (by decide) (by decide) (by decide) (by decide)

/-! ## C5 : cache bound -/

/-- The cache invariant : at most `MAX_PREFETCH` entries, and no
empty-string key (the public API only ever stores non-empty trimmed texts;
an empty key would trip the JS falsy check inside the eviction loop). -/
def cacheOK (s : TtsState) : Prop :=
  s.prefetchCache.length ≤ MAX_PREFETCH ∧ ∀ p ∈ s.prefetchCache, ¬ p.1 = ""

/-- Entries surviving the eviction loop were already in the cache. -/
theorem evictSteps_cache_subset (fuel : Nat) :
    ∀ s : TtsState, ∀ p ∈ (evictSteps fuel s).1.prefetchCache,
      p ∈ s.prefetchCache := by
  induction fuel with
  | zero => intro s p hp; exact hp
  | succ n ih =>
    intro s p hp
    unfold evictSteps at hp
    by_cases h : s.prefetchCache.length > MAX_PREFETCH
    · rw [if_pos h] at hp
      cases hh : s.prefetchCache.head? with
      | none => rw [hh] at hp; exact hp
      | some entry =>
        rw [hh] at hp
        dsimp only at hp
        by_cases he : entry.1 = ""
        · rw [if_pos he] at hp
          exact hp
        · rw [if_neg he] at hp
          cases hg : mapGet s.prefetchCache entry.1 with
          | some oldUrl =>
            rw [hg] at hp
            dsimp only at hp
            have h1 := ih _ p hp
            have h2 : p ∈ mapDelete s.prefetchCache entry.1 := h1
            unfold mapDelete at h2
            exact List.mem_of_mem_filter h2
          | none =>
            rw [hg] at hp
            dsimp only at hp
            have h1 := ih _ p hp
            have h2 : p ∈ mapDelete s.prefetchCache entry.1 := h1
            unfold mapDelete at h2
            exact List.mem_of_mem_filter h2
    · rw [if_neg h] at hp
      exact hp

/-- With no empty key and enough fuel, the eviction loop restores the
capacity bound. -/
theorem evictSteps_len (fuel : Nat) :
    ∀ s : TtsState, (∀ p ∈ s.prefetchCache, ¬ p.1 = "") →
    s.prefetchCache.length ≤ MAX_PREFETCH + fuel →
    (evictSteps fuel s).1.prefetchCache.length ≤ MAX_PREFETCH := by
  induction fuel with
  | zero => intro s _ hlen; simpa using hlen
  | succ n ih =>
    intro s hne hlen
    unfold evictSteps
    by_cases h : s.prefetchCache.length > MAX_PREFETCH
    · rw [if_pos h]
      cases hcc : s.prefetchCache with
      | nil =>
        rw [hcc] at h
        simp [MAX_PREFETCH] at h
      | cons hd tl =>
        simp only [List.head?_cons]
        have hne1 : ¬ hd.1 = "" := hne hd (by rw [hcc]; exact List.mem_cons_self _ _)
        rw [if_neg hne1]
        have hget : mapGet (hd :: tl) hd.1 = some hd.2 := by
          simp [mapGet, List.find?_cons]
        rw [hget]
        dsimp only
        apply ih
        · intro p hp
          have h2 : p ∈ mapDelete (hd :: tl) hd.1 := hp
          unfold mapDelete at h2
          have h3 := List.mem_of_mem_filter h2
          apply hne
          rw [hcc]
          exact h3
        · have h1 : mapDelete (hd :: tl) hd.1
              = tl.filter (fun p => ¬ p.1 = hd.1) := by
            simp [mapDelete, List.filter_cons]
          have h2 : (mapDelete (hd :: tl) hd.1).length ≤ tl.length := by
            rw [h1]
            exact List.length_filter_le _ _
          have h3 : tl.length + 1 ≤ MAX_PREFETCH + (n + 1) := by
            rw [hcc] at hlen
            simpa using hlen
          show (mapDelete (hd :: tl) hd.1).length ≤ MAX_PREFETCH + n
          omega
    · rw [if_neg h]
      dsimp only
      omega

/-- Lemma : `mapSet` with a non-empty key preserves the no-empty-key property. -/
theorem mapSet_keys_ne (m : List (String × Nat)) (t : String) (u : Nat)
    (hne : ∀ p ∈ m, ¬ p.1 = "") (ht : ¬ t = "") :
    ∀ p ∈ mapSet m t u, ¬ p.1 = "" := by
  intro p hp
  unfold mapSet at hp
  by_cases h : mapHas m t
  · rw [if_pos h] at hp
    obtain ⟨q, hq, hpq⟩ := List.mem_map.1 hp
    by_cases hqt : q.1 = t
    · rw [if_pos hqt] at hpq
      rw [← hpq]
      exact ht
    · rw [if_neg hqt] at hpq
      rw [← hpq]
      exact hne q hq
  · rw [if_neg h] at hp
    rcases List.mem_append.1 hp with h1 | h1
    · exact hne p h1
    · simp only [List.mem_singleton] at h1
      rw [h1]
      exact ht

/-- Lemma : `_cacheStore` with a non-empty key establishes the cache invariant,
whatever the size of the input cache. -/
theorem cacheStore_cacheOK (s : TtsState) (t : String) (u : Nat)
    (hne : ∀ p ∈ s.prefetchCache, ¬ p.1 = "") (ht : ¬ t = "") :
    cacheOK (_cacheStore s t u).1 := by
  unfold _cacheStore cacheOK
  constructor
  · apply evictSteps_len
    · intro p hp
      exact mapSet_keys_ne s.prefetchCache t u hne ht p hp
    · exact Nat.le_add_left _ _
  · intro p hp
    exact mapSet_keys_ne s.prefetchCache t u hne ht p
      (evictSteps_cache_subset _ _ p hp)

/-- Lemma : `prefetchSpeech` never touches the cache. -/
theorem prefetchSpeech_cache (s : TtsState) (t : String) :
    (prefetchSpeech s t).1.prefetchCache = s.prefetchCache := by
  dsimp only [prefetchSpeech]
  split <;> rfl

/-- The `forEach` body of `prefetchAllScenes` never touches the cache. -/
theorem scenesLoop_cache (items : List (Nat × String)) :
    ∀ s : TtsState, (scenesLoop s items).1.prefetchCache = s.prefetchCache := by
  induction items with
  | nil => intro s; rfl
  | cons it rest ih =>
    intro s
    unfold scenesLoop
    by_cases h1 : mapHas s.prefetchCache it.2 ∨ it.2 ∈ s.pendingPrefetches
    · rw [if_pos h1]
      exact ih s
    · rw [if_neg h1]
      by_cases h2 : it.1 = 0
      · rw [if_pos h2]
        dsimp only
        rw [ih _]
        exact prefetchSpeech_cache s it.2
      · rw [if_neg h2]
        dsimp only
        exact ih s

/-- The trimmed text a `speak` continuation captures is never empty. -/
theorem speak_outcome_text (s : TtsState) (t tr : String) (g c : Nat) :
    ((speak s t).2.2 = SpeakOutcome.directFetch g tr c → ¬ tr = "") ∧
    ((speak s t).2.2 = SpeakOutcome.awaitedPending g tr → ¬ tr = "") := by
  unfold speak
  by_cases h1 : jsTrim t = ""
  · simp [h1]
  · simp only [h1, if_false]
    cases hm : mapGet (_cleanup s).1.prefetchCache (jsTrim t) with
    | some cached => simp
    | none =>
      by_cases h2 : jsTrim t ∈ (_cleanup s).1.pendingPrefetches
      · simp only [hm, h2, if_true]
        constructor
        · intro h
          cases h
        · intro h
          cases h
          exact h1
      · simp only [hm, h2, if_false]
        constructor
        · intro h
          cases h
          exact h1
        · intro h
          cases h

/-- The trimmed text a prefetch continuation captures is never empty. -/
theorem prefetch_outcome_text (s : TtsState) (t tr : String) (c : Nat) :
    (prefetchSpeech s t).2.2 = PrefetchOutcome.started tr c → ¬ tr = "" := by
  unfold prefetchSpeech
  by_cases hg : jsTrim t = "" ∨ mapHas s.prefetchCache (jsTrim t) ∨
      jsTrim t ∈ s.pendingPrefetches
  · rw [if_pos hg]
    intro h
    cases h
  · rw [if_neg hg]
    intro h
    cases h
    exact fun hh => hg (Or.inl hh)

/-- Claim C5 : the cache bound `size ≤ 30` holds initially and is preserved by
every operation of the service. The only operations that write to the cache
are the two fetch settlements, both of which go through `_cacheStore` with
the non-empty trimmed text their continuation captured, and `_cacheStore`
restores the bound by eviction; every other operation leaves the cache
untouched. -/
theorem cache_bound :
    cacheOK initState ∧
    (∀ s t u, cacheOK s → ¬ t = "" → cacheOK (_cacheStore s t u).1) ∧
    (∀ s t g tr c, (speak s t).2.2 = SpeakOutcome.directFetch g tr c → ¬ tr = "") ∧
    (∀ s t g tr, (speak s t).2.2 = SpeakOutcome.awaitedPending g tr → ¬ tr = "") ∧
    (∀ s t tr c, (prefetchSpeech s t).2.2 = PrefetchOutcome.started tr c → ¬ tr = "") ∧
    (∀ s g tr r, cacheOK s → ¬ tr = "" → cacheOK (directFetchSettle s g tr r).1) ∧
    (∀ s tr r, cacheOK s → ¬ tr = "" → cacheOK (prefetchSettle s tr r).1) ∧
    (∀ s t, (speak s t).1.prefetchCache = s.prefetchCache) ∧
    (∀ s t, (prefetchSpeech s t).1.prefetchCache = s.prefetchCache) ∧
    (∀ s g tr r, (pendingAwaitSettle s g tr r).1.prefetchCache = s.prefetchCache) ∧
    (∀ s, (cancelSpeech s).1.prefetchCache = s.prefetchCache) ∧
    (∀ s, (cancelAllPrefetches s).1.prefetchCache = s.prefetchCache) ∧
    (∀ s l, (prefetchAllScenes s l).1.prefetchCache = s.prefetchCache) ∧
    (∀ s t, (staggeredFire s t).1.prefetchCache = s.prefetchCache) := by
  refine ⟨⟨by simp [initState, MAX_PREFETCH], by simp [initState]⟩,
    ?_, ?_, ?_, ?_, ?_, ?_, ?_, ?_, ?_, ?_, ?_, ?_, ?_⟩
  · intro s t u hok ht
    exact cacheStore_cacheOK s t u hok.2 ht
  · intro s t g tr c h
    exact (speak_outcome_text s t tr g c).1 h
  · intro s t g tr h
    exact (speak_outcome_text s t tr g 0).2 h
  · intro s t tr c h
    exact prefetch_outcome_text s t tr c h
  · intro s g tr r hok htr
    unfold directFetchSettle
    by_cases hg : g ≠ s.speakGen
    · rw [if_pos hg]
      exact hok
    · rw [if_neg hg]
      cases r with
      | none => exact hok
      | some url =>
        dsimp only
        exact cacheStore_cacheOK s tr url hok.2 htr
  · intro s tr r hok htr
    unfold prefetchSettle
    cases r with
    | none => exact hok
    | some url =>
      dsimp only
      exact cacheStore_cacheOK _ tr url hok.2 htr
  · intro s t
    exact (speak_frame s t).1
  · intro s t
    exact prefetchSpeech_cache s t
  · intro s g tr r
    unfold pendingAwaitSettle
    by_cases hg : g ≠ s.speakGen
    · rw [if_pos hg]
    · rw [if_neg hg]
      cases r <;> rfl
  · intro s
    rfl
  · intro s
    rfl
  · intro s l
    exact scenesLoop_cache _ s
  · intro s t
    unfold staggeredFire
    split
    · rfl
    · exact prefetchSpeech_cache s t

/-- Witness for C5 : storing into the empty initial cache keeps the bound. -/
theorem cache_bound_witness : cacheOK (_cacheStore initState "a" 5).1 :=
  cache_bound.2.1 initState "a" 5 cache_bound.1 (by decide)

/-! ## C8 : stagger schedule -/

/-- De-duplication only keeps elements of the input. -/
theorem dedupAux_subset (l : List String) :
    ∀ seen, ∀ x ∈ dedupAux l seen, x ∈ l := by
  induction l with
  | nil =>
    intro seen x hx
    cases hx
  | cons a as ih =>
    intro seen x hx
    unfold dedupAux at hx
    by_cases h : a ∈ seen
    · rw [if_pos h] at hx
      exact List.mem_cons_of_mem _ (ih seen x hx)
    · rw [if_neg h] at hx
      rcases List.mem_cons.1 hx with h1 | h1
      · rw [h1]
        exact List.mem_cons_self _ _
      · exact List.mem_cons_of_mem _ (ih _ x h1)

/-- De-duplication produces a duplicate-free list avoiding the seen set. -/
theorem dedupAux_nodup (l : List String) :
    ∀ seen, (dedupAux l seen).Nodup ∧ ∀ x ∈ dedupAux l seen, x ∉ seen := by
  induction l with
  | nil =>
    intro seen
    refine ⟨List.nodup_nil, ?_⟩
    intro x hx
    cases hx
  | cons a as ih =>
    intro seen
    unfold dedupAux
    by_cases h : a ∈ seen
    · rw [if_pos h]
      exact ih seen
    · rw [if_neg h]
      obtain ⟨hnd, hns⟩ := ih (a :: seen)
      constructor
      · refine List.nodup_cons.2 ⟨?_, hnd⟩
        intro hmem
        exact (hns a hmem) (List.mem_cons_self _ _)
      · intro x hx
        rcases List.mem_cons.1 hx with h1 | h1
        · rw [h1]
          exact h
        · intro hxs
          exact (hns x h1) (List.mem_cons_of_mem _ hxs)

/-- Elements of the enumeration carry an index at least the start index and
a text from the list. -/
theorem enumIdx_mem (l : List String) :
    ∀ n, ∀ p ∈ enumIdx n l, n ≤ p.1 ∧ p.2 ∈ l := by
  induction l with
  | nil =>
    intro n p hp
    cases hp
  | cons a as ih =>
    intro n p hp
    unfold enumIdx at hp
    rcases List.mem_cons.1 hp with h1 | h1
    · rw [h1]
      exact ⟨Nat.le_refl _, List.mem_cons_self _ _⟩
    · obtain ⟨ha, hb⟩ := ih (n + 1) p h1
      exact ⟨by omega, List.mem_cons_of_mem _ hb⟩

/-- On an empty cache, items with positive index that are not pending are
all only scheduled : the state is unchanged, no effect is emitted, and the
schedule is index times `PREFETCH_STAGGER_MS`. -/
theorem scenesLoop_all_scheduled (items : List (Nat × String)) :
    ∀ s : TtsState, s.prefetchCache = [] →
    (∀ p ∈ items, p.2 ∉ s.pendingPrefetches) →
    (∀ p ∈ items, ¬ p.1 = 0) →
    scenesLoop s items =
      (s, [], items.map (fun p => (p.1 * PREFETCH_STAGGER_MS, p.2))) := by
  induction items with
  | nil =>
    intro s _ _ _
    rfl
  | cons it rest ih =>
    intro s hcache hpend hidx
    unfold scenesLoop
    have h1 : ¬ (mapHas s.prefetchCache it.2 ∨ it.2 ∈ s.pendingPrefetches) := by
      intro hx
      rcases hx with hx | hx
      · rw [hcache] at hx
        simp [mapHas] at hx
      · exact hpend it (List.mem_cons_self _ _) hx
    rw [if_neg h1]
    rw [if_neg (hidx it (List.mem_cons_self _ _))]
    dsimp only
    rw [ih s hcache (fun p hp => hpend p (List.mem_cons_of_mem _ hp))
        (fun p hp => hidx p (List.mem_cons_of_mem _ hp))]
    rfl

/-- Claim C8 : `prefetchAllScenes`, started from a state with empty cache and
empty pending map, de-duplicates the trimmed non-empty narration texts,
issues the network request for the first unique text immediately (the only
immediate effect), and schedules every subsequent unique text at its index
`i` in the unique list with delay `i * PREFETCH_STAGGER_MS` (150 ms per
index); a staggered item whose text has become cached or pending by fire
time is skipped (no state change, no effect). The `hid` hypothesis states
that trimming is idempotent on the given texts. -/
theorem prefetchAllScenes_stagger (s : TtsState) (narrations : List String)
    (hcache : s.prefetchCache = [])
    (hpend : s.pendingPrefetches = [])
    (hid : ∀ n ∈ narrations, jsTrim (jsTrim n) = jsTrim n) :
    (dedup ((narrations.map jsTrim).filter (fun t => ¬ t = "")) = [] →
       prefetchAllScenes s narrations = (s, [], [])) ∧
    (∀ u0 rest,
       dedup ((narrations.map jsTrim).filter (fun t => ¬ t = "")) = u0 :: rest →
       (prefetchAllScenes s narrations).2.1 = [Eff.netRequest u0] ∧
       (prefetchAllScenes s narrations).2.2 =
         (enumIdx 1 rest).map (fun p => (p.1 * PREFETCH_STAGGER_MS, p.2))) ∧
    (∀ s' t, (mapHas s'.prefetchCache t ∨ t ∈ s'.pendingPrefetches) →
       staggeredFire s' t = (s', [])) := by
  refine ⟨?_, ?_, ?_⟩
  · intro hnil
    dsimp only [prefetchAllScenes]
    rw [hnil]
    rfl
  · intro u0 rest hu
    have hmemu0 : u0 ∈ dedup ((narrations.map jsTrim).filter (fun t => ¬ t = "")) := by
      rw [hu]
      exact List.mem_cons_self _ _
    have hu0L : u0 ∈ (narrations.map jsTrim).filter (fun t => ¬ t = "") :=
      dedupAux_subset _ _ u0 hmemu0
    have hu0ne : ¬ u0 = "" := by
      have := (List.mem_filter.1 hu0L).2
      simpa using this
    have hu0trim : jsTrim u0 = u0 := by
      obtain ⟨n, hn, hmapeq⟩ := List.mem_map.1 (List.mem_filter.1 hu0L).1
      rw [← hmapeq]
      exact hid n hn
    have hnd : (u0 :: rest).Nodup := by
      rw [← hu]
      exact (dedupAux_nodup _ _).1
    have hu0rest : u0 ∉ rest := (List.nodup_cons.1 hnd).1
    have hg : ¬ (jsTrim u0 = "" ∨ mapHas s.prefetchCache (jsTrim u0) ∨
        jsTrim u0 ∈ s.pendingPrefetches) := by
      rw [hu0trim, hcache, hpend]
      intro hx
      rcases hx with hx | hx | hx
      · exact hu0ne hx
      · simp [mapHas] at hx
      · cases hx
    have hfirst : prefetchSpeech s u0 =
        ({ s with nextId := s.nextId + 1,
                  prefetchAbortCtrls := mapSet s.prefetchAbortCtrls u0 s.nextId,
                  pendingPrefetches := s.pendingPrefetches ++ [u0] },
         [Eff.netRequest u0], PrefetchOutcome.started u0 s.nextId) := by
      dsimp only [prefetchSpeech]
      rw [if_neg hg, hu0trim]
    have hrest : scenesLoop
        ({ s with nextId := s.nextId + 1,
                  prefetchAbortCtrls := mapSet s.prefetchAbortCtrls u0 s.nextId,
                  pendingPrefetches := s.pendingPrefetches ++ [u0] } : TtsState)
        (enumIdx 1 rest) =
        (({ s with nextId := s.nextId + 1,
                   prefetchAbortCtrls := mapSet s.prefetchAbortCtrls u0 s.nextId,
                   pendingPrefetches := s.pendingPrefetches ++ [u0] } : TtsState),
         [], (enumIdx 1 rest).map (fun p => (p.1 * PREFETCH_STAGGER_MS, p.2))) := by
      apply scenesLoop_all_scheduled
      · exact hcache
      · intro p hp
        have h2 := (enumIdx_mem rest 1 p hp).2
        have h3 : ¬ p.2 = u0 := by
          intro hx
          rw [hx] at h2
          exact hu0rest h2
        show p.2 ∉ s.pendingPrefetches ++ [u0]
        rw [hpend]
        simp [h3]
      · intro p hp
        have h2 := (enumIdx_mem rest 1 p hp).1
        omega
    have hfalse : ¬ (mapHas s.prefetchCache u0 ∨ u0 ∈ s.pendingPrefetches) := by
      intro hx
      rcases hx with hx | hx
      · rw [hcache] at hx
        simp [mapHas] at hx
      · rw [hpend] at hx
        cases hx
    dsimp only [prefetchAllScenes]
    rw [hu]
    show ((scenesLoop s ((0, u0) :: enumIdx 1 rest)).2.1 = _) ∧
      ((scenesLoop s ((0, u0) :: enumIdx 1 rest)).2.2 = _)
    unfold scenesLoop
    rw [if_neg hfalse, if_pos rfl]
    dsimp only
    rw [hfirst]
    dsimp only
    rw [hrest]
    constructor
    · rfl
    · rfl
  · intro s' t h
    unfold staggeredFire
    rw [if_pos h]

/-- Witness for C8 : three narrations with duplicates and padding, from the
initial state : one immediate request for `"a"`, one scheduled item
`(150, "b")`, and a staggered item that became pending is skipped. -/
theorem prefetchAllScenes_stagger_witness :
    (prefetchAllScenes initState [" a ", "b ", "a"]).2.1
        = [Eff.netRequest "a"] ∧
    (prefetchAllScenes initState [" a ", "b ", "a"]).2.2 = [(150, "b")] ∧
    staggeredFire { initState with pendingPrefetches := ["b"] } "b"
        = ({ initState with pendingPrefetches := ["b"] }, []) := by
  have h := prefetchAllScenes_stagger initState [" a ", "b ", "a"] rfl rfl
    (by decide)
  refine ⟨(h.2.1 "a" ["b"] (by decide)).1, ?_, ?_⟩
  · rw [(h.2.1 "a" ["b"] (by decide)).2]
    decide
  · exact h.2.2 { initState with pendingPrefetches := ["b"] } "b"
      (Or.inr (by decide))

end TtsService
